import Mathlib

/-!
Verification of the apollo privilege-escalation control plane.

Shallow embedding of the Go sources:
* `internal/rules/security.go` — the default rule engine;
* `internal/api/handlers.go` — the in-memory job store and the health handler;
* `internal/operators/module.go` — the module registry;
* `cmd/operator/modules` (part_003) — the operator-side registry variant;
* `internal/operators/mysql/module.go` and the kubernetes module (part_010);
* the operator main loop `processJobs` / `handlePrivilegeRevoke` (part_001).

Go `time.Duration` values and `time.Time` instants are embedded as `Int`
nanosecond counts (`time.Time.Sub` is subtraction of the two instants).
Go maps are embedded as association lists in insertion order together with
an explicit enumeration parameter wherever the code ranges over a map,
because Go map iteration order is unspecified.
Fallible Go functions returning `error` become `Except String` / `Option String`
values carrying the exact `fmt.Errorf` text.
-/

namespace Apollo

/-- One second in nanoseconds, the unit of Go `time.Duration`. -/
def Second : Int := 1000000000

/-- Go `time.Minute`. -/
def Minute : Int := 60 * Second

/-- Go `time.Hour`. -/
def Hour : Int := 60 * Minute

/-! ## Rule engine (`internal/rules/security.go`) -/

/-- The fields of `models.PrivilegeRequest` (internal/core/models/privilege.go)
read by the rule engine.  `RequestedAt` and `ExpiresAt` are `time.Time`
instants, embedded as nanosecond counts. -/
structure ModelsPrivilegeRequest where
  Reason : String
  RequestedAt : Int
  ExpiresAt : Int
deriving Repr, DecidableEq

/-- Embeds `maxDuration := 24 * time.Hour` in `EvaluateRequest`. -/
def maxDuration : Int := 24 * Hour

/-- Embeds `minDuration := 5 * time.Minute` in `EvaluateRequest`. -/
def minDuration : Int := 5 * Minute

/-- Embeds `DefaultRuleEngine.EvaluateRequest` (security.go lines 32-51).
Returns `none` for a nil error and `some msg` for `errors.New(msg)`.
The Go function performs no writes, so it is embedded as a pure function. -/
def EvaluateRequest (request : ModelsPrivilegeRequest) : Option String :=
  if request.ExpiresAt - request.RequestedAt > maxDuration then
    some ("privilege duration exceeds maximum allowed time")
  else if request.ExpiresAt - request.RequestedAt < minDuration then
    some ("privilege duration is less than minimum allowed time")
  else if request.Reason = "" then
    some ("reason is required for privilege request")
  else
    none

/-! ## Job store (`internal/api/handlers.go`) -/

/-- Embeds `api.Job` (handlers.go lines 15-23).  `Request` is the raw JSON payload;
the field `Type` of the source is named `Ty` here because `Type` is reserved
in Lean. -/
structure Job where
  ID : String
  Module : String
  Ty : String
  Request : String
  Status : String
  Result : String
  Error : String
deriving Repr, DecidableEq

/-- The contents of the Go map `JobStore.jobs`, kept in insertion order.
A Go map holds at most one entry per key; `mapInsert` below preserves that. -/
abbrev JobStore := List Job

/-- Go map read `s.jobs[id]`: the store holds at most one job per ID, so
taking the first match agrees with the map semantics. -/
def findJob : JobStore → String → Option Job
  | [], _ => none
  | j :: rest, id => if j.ID = id then some j else findJob rest id

/-- Go map write `s.jobs[job.ID] = job`: replaces an existing entry with the
same ID, otherwise appends. -/
def mapInsert : JobStore → Job → JobStore
  | [], job => [job]
  | j :: rest, job => if j.ID = job.ID then job :: rest else j :: mapInsert rest job

/-- Decimal digit character, mirroring what `fmt.Sprintf("%d", _)` emits. -/
def digitChar : Nat → Char
  | 0 => Char.ofNat 48
  | 1 => Char.ofNat 49
  | 2 => Char.ofNat 50
  | 3 => Char.ofNat 51
  | 4 => Char.ofNat 52
  | 5 => Char.ofNat 53
  | 6 => Char.ofNat 54
  | 7 => Char.ofNat 55
  | 8 => Char.ofNat 56
  | _ => Char.ofNat 57

/-- Worker for `natDigits`, structurally recursive on a fuel bound so that it
evaluates by kernel reduction; the fuel never runs out when it starts at
`n + 1` because `n / 10 < n` for `n ≥ 10`. -/
def natDigitsAux : Nat → Nat → List Char
  | 0, _ => []
  | fuel + 1, n =>
      if n < 10 then [digitChar n]
      else natDigitsAux fuel (n / 10) ++ [digitChar (n % 10)]

/-- Decimal representation of a natural number, most significant digit first,
no leading zeros — the output of `fmt.Sprintf("%d", n)` for `n ≥ 0`. -/
def natDigits (n : Nat) : List Char :=
  natDigitsAux (n + 1) n

/-- Embeds `generateJobID` (handlers.go lines 286-288): `fmt.Sprintf("job_%d", t)`
where `t` is the `time.Now().UnixNano()` reading at the call, passed here as
an explicit parameter because it is an input from the environment. -/
def generateJobID (nowUnixNano : Nat) : String :=
  "job_" ++ String.mk (natDigits nowUnixNano)

/-- Embeds `JobStore.CreateJob` (handlers.go lines 39-53), with the wall-clock
nanosecond reading made explicit.  Returns the created job and the new store. -/
def CreateJob (s : JobStore) (module jobType request : String) (nowUnixNano : Nat) :
    Job × JobStore :=
  let job : Job :=
    { ID := generateJobID nowUnixNano
      Module := module
      Ty := jobType
      Request := request
      Status := "pending"
      Result := ""
      Error := "" }
  (job, mapInsert s job)

/-- Embeds `JobStore.UpdateJob` (handlers.go lines 77-90).  Looks the job up; on a
miss returns the `job not found` error, otherwise sets `Status`, `Result`
and `Error` unconditionally — the source has no check of the current status. -/
def UpdateJob (s : JobStore) (id status result errMsg : String) : Except String JobStore :=
  match findJob s id with
  | none => Except.error ("job not found: " ++ id)
  | some _ =>
      Except.ok (s.map fun j =>
        if j.ID = id then { j with Status := status, Result := result, Error := errMsg } else j)

/-- Embeds `JobStore.GetPendingJobs` (handlers.go lines 63-74).  The loop ranges over
the Go map `s.jobs`, whose iteration order is unspecified: `enum` is the
order in which the map happens to yield the stored jobs, so the function is
correct for every permutation `enum` of the store contents. -/
def GetPendingJobs (enum : List Job) : List Job :=
  enum.filter fun j => j.Status = "pending"

/-! ## Health handler (`internal/api/handlers.go` lines 251-283) -/

/-- Embeds `api.HealthResponse` (handlers.go lines 246-249).  The `Modules` JSON map
is embedded as an association list in write order. -/
structure HealthResponse where
  Status : String
  Modules : List (String × String)
deriving Repr, DecidableEq

/-- Go map write `m[k] = v` on a `map[string]string`. -/
def mapSet : List (String × String) → String → String → List (String × String)
  | [], k, v => [(k, v)]
  | (k0, v0) :: rest, k, v =>
      if k0 = k then (k, v) :: rest else (k0, v0) :: mapSet rest k v

/-- Go map read on a `map[string]string`. -/
def mapGet : List (String × String) → String → Option String
  | [], _ => none
  | (k0, v0) :: rest, k => if k0 = k then some v0 else mapGet rest k

/-- The `for _, module := range h.modules` loop of `HandleHealthCheck`
(handlers.go lines 264-272).  Each module is given by its name and the
result of its `HealthCheck` call: `none` for a nil error, `some e` for an
error whose `Error()` text is `e`. -/
def healthLoop : List (String × Option String) → HealthResponse → HealthResponse
  | [], response => response
  | (name, some e) :: rest, response =>
      healthLoop rest
        { Status := "degraded"
          Modules := mapSet response.Modules name ("unhealthy: " ++ e) }
  | (name, none) :: rest, response =>
      healthLoop rest { response with Modules := mapSet response.Modules name "healthy" }

/-- Embeds `Handler.HandleHealthCheck` (handlers.go lines 252-283): starts from
`Status := "healthy"`, runs the loop, then answers HTTP 503 when the status
is `"degraded"` and HTTP 200 otherwise.  Returns the encoded response and
the status code. -/
def HandleHealthCheck (modules : List (String × Option String)) : HealthResponse × Nat :=
  let response := healthLoop modules { Status := "healthy", Modules := [] }
  (response, if response.Status = "degraded" then 503 else 200)

/-! ## Go string helpers (`strings.Split`, `strings.TrimSpace`) -/

/-- Embeds `strings.Split(_, sep)` for a one-character separator, on the character
list: every separator occurrence splits, adjacent separators yield empty
fields, and the empty input yields one empty field — Go's semantics. -/
def splitChar (sep : Char) : List Char → List (List Char)
  | [] => [[]]
  | c :: rest =>
      let groups := splitChar sep rest
      if c = sep then [] :: groups
      else
        match groups with
        | [] => [[c]]
        | g :: gs => (c :: g) :: gs

/-- Embeds `strings.Split(s, ",")`. -/
def goSplitComma (s : String) : List String :=
  (splitChar (Char.ofNat 44) s.data).map String.mk

/-- Go `unicode.IsSpace` restricted to ASCII, which module names use. -/
def isSpaceChar (c : Char) : Bool :=
  c.toNat = 32 || c.toNat = 9 || c.toNat = 10 || c.toNat = 13 || c.toNat = 11 || c.toNat = 12

/-- Embeds `strings.TrimSpace`: drop leading and trailing whitespace. -/
def trimSpace (s : String) : String :=
  String.mk (((s.data.dropWhile isSpaceChar).reverse.dropWhile isSpaceChar).reverse)

/-! ## Module registry (`internal/operators/module.go`) -/

/-- The part of the `operators.Module` interface the registry sees: `Name()`
and `Description()`.  Two modules with the same name may still differ in
description, so registration order and identity are observable. -/
structure Module where
  name : String
  description : String
deriving Repr, DecidableEq

/-- Embeds `strings.ToLower`, ASCII-faithful: Go lowercases Unicode, Lean's
`Char.toLower` lowercases `A`-`Z`; module names in this repository are
ASCII. -/
def toLowerStr (s : String) : String :=
  String.mk (s.data.map Char.toLower)

/-- The Go map `ModuleRegistry.modules`, keyed by lower-cased name, in
insertion order. -/
abbrev ModuleRegistry := List (String × Module)

/-- Go map read `r.modules[k]`. -/
def lookupKey : ModuleRegistry → String → Option Module
  | [], _ => none
  | (k0, m) :: rest, k => if k0 = k then some m else lookupKey rest k

/-- Embeds `ModuleRegistry.Register` (module.go lines 60-71): keys the module by
`strings.ToLower(module.Name())`, fails when the key already exists,
otherwise stores the module under that key. -/
def Register (r : ModuleRegistry) (module : Module) : Except String ModuleRegistry :=
  let name := toLowerStr module.name
  match lookupKey r name with
  | some _ => Except.error ("module " ++ name ++ " is already registered")
  | none => Except.ok (r ++ [(name, module)])

/-- Embeds `ModuleRegistry.GetModule` (module.go lines 74-84): looks the name up
lower-cased; the error carries the name as given by the caller. -/
def GetModule (r : ModuleRegistry) (name : String) : Except String Module :=
  match lookupKey r (toLowerStr name) with
  | some module => Except.ok module
  | none => Except.error ("module " ++ name ++ " not found")

/-- The `for _, name := range moduleNames` loop of
`ModuleRegistry.GetEnabledModules` (module.go lines 107-119): trims each
name, skips empty names, resolves via `GetModule`, and aborts with a wrapped
error on the first unresolved name. -/
def resolveNames (r : ModuleRegistry) : List String → Except String (List Module)
  | [] => Except.ok []
  | rawName :: rest =>
      if trimSpace rawName = "" then resolveNames r rest
      else
        match GetModule r (trimSpace rawName) with
        | Except.error e =>
            Except.error ("failed to get module " ++ trimSpace rawName ++ ": " ++ e)
        | Except.ok module =>
            match resolveNames r rest with
            | Except.error e => Except.error e
            | Except.ok modules => Except.ok (module :: modules)

/-- Embeds `ModuleRegistry.GetEnabledModules` (module.go lines 99-122): rejects the
empty configuration string, splits on commas, and resolves the names in the
caller's order. -/
def GetEnabledModules (r : ModuleRegistry) (enabledModules : String) :
    Except String (List Module) :=
  if enabledModules = "" then Except.error ("no modules enabled")
  else resolveNames r (goSplitComma enabledModules)

/-- Embeds `Registry.GetEnabledModules` of the operator-side registry
(`cmd/operator/modules`, part_003 lines 173-186).  That registry is keyed by
the exact (not lower-cased) module name; the loop trims each name and keeps
it only `if module, exists := r.modules[name]; exists` — an unknown name is
silently skipped and no error is ever returned. -/
def CmdGetEnabledModules (r : List (String × Module)) (names : String) : List Module :=
  if names = "" then []
  else (goSplitComma names).filterMap fun rawName => lookupKey r (trimSpace rawName)

/-! ## MySQL module (`internal/operators/mysql/module.go`) and
kubernetes module (part_010) -/

/-- The grant record the MySQL module marshals into `request.Metadata`
(mysql/module.go lines 122-134). -/
structure MySQLGrant where
  ID : String
  Username : String
  Password : String
  Privileges : List String
  ExpiresAt : Int
deriving Repr, DecidableEq

/-- The grant record the kubernetes module stores in `request.Metadata`
(part_010 lines 123-133). -/
structure K8sGrant where
  ID : String
  RoleName : String
  Role : String
  ExpiresAt : Int
deriving Repr, DecidableEq

/-- The `{"grant": grant}` value a module writes into the opaque
`map[string]interface{}` metadata of a request. -/
inductive GrantMetadata where
  | mysqlGrant (g : MySQLGrant)
  | kubernetesGrant (g : K8sGrant)
deriving Repr, DecidableEq

/-- Embeds `operators.PrivilegeRequest` (internal/operators/module.go lines 35-44).
All fields are strings in the source; `Metadata` starts out absent and is
populated by a module. -/
structure OpPrivilegeRequest where
  ID : String
  UserID : String
  ResourceID : String
  Level : String
  Duration : String
  Reason : String
  RequestedAt : String
  Metadata : Option GrantMetadata
deriving Repr, DecidableEq

/-- Embeds `parsePrivileges` (mysql/module.go lines 172-186): the privilege map has
exactly the keys `read`, `write`, `admin`. -/
def parsePrivileges (level : String) : Except String (List String) :=
  if level = "read" then Except.ok ["SELECT"]
  else if level = "write" then Except.ok ["SELECT", "INSERT", "UPDATE", "DELETE"]
  else if level = "admin" then Except.ok ["ALL PRIVILEGES"]
  else Except.error ("invalid privilege level: " ++ level)

/-- Embeds `parseDuration` (mysql/module.go lines 188-195 and, identically, part_010
lines 185-192): `time.ParseDuration` is Go standard library, passed in here
as the parameter `goParseDuration` (`none` models a parse error); on a parse
error the function silently returns `time.Hour`. -/
def parseDuration (goParseDuration : String → Option Int) (duration : String) : Int :=
  match goParseDuration duration with
  | none => Hour
  | some d => d

/-- Embeds `generateSecurePassword` (mysql/module.go lines 197-200). -/
def generateSecurePassword : String := "temporary_password"

/-- An ASCII single-quote character, spelled by code point. -/
def sq : String := String.mk [Char.ofNat 39]

/-- The GRANT statement built at mysql/module.go lines 113-114. -/
def grantQuery (privilege resourceID username password : String) : String :=
  "GRANT " ++ privilege ++ " ON " ++ resourceID ++ " TO " ++ sq ++ username ++ sq ++
    "@" ++ sq ++ "%" ++ sq ++ " IDENTIFIED BY " ++ sq ++ password ++ sq

/-- The `for _, privilege := range privileges` loop of
`HandlePrivilegeRequest` (mysql/module.go lines 112-119): executes each
GRANT via `m.db.ExecContext` (the database, passed in as `exec`) and aborts
with the wrapped error on the first failure. -/
def execGrants (exec : String → Except String Unit) : List String → Except String Unit
  | [] => Except.ok ()
  | q :: rest =>
      match exec q with
      | Except.error e => Except.error ("failed to grant privileges: " ++ e)
      | Except.ok () => execGrants exec rest

/-- Embeds `mysql.Module.HandlePrivilegeRequest` (mysql/module.go lines 100-146).
`exec` is the database connection, `now` the `time.Now()` reading at the
grant-record construction, `goParseDuration` the standard-library duration
parser.  On success the request is returned with its `Metadata` populated. -/
def mysqlHandlePrivilegeRequest (goParseDuration : String → Option Int)
    (exec : String → Except String Unit) (now : Int) (request : OpPrivilegeRequest) :
    Except String OpPrivilegeRequest :=
  match parsePrivileges request.Level with
  | Except.error e => Except.error ("invalid privilege level: " ++ e)
  | Except.ok privileges =>
      let username := "apollo_" ++ request.UserID ++ "_" ++ request.ID
      let password := generateSecurePassword
      match execGrants exec
          (privileges.map fun p => grantQuery p request.ResourceID username password) with
      | Except.error e => Except.error e
      | Except.ok () =>
          let grant : MySQLGrant :=
            { ID := request.ID
              Username := username
              Password := password
              Privileges := privileges
              ExpiresAt := now + parseDuration goParseDuration request.Duration }
          Except.ok { request with Metadata := some (GrantMetadata.mysqlGrant grant) }

/-- Embeds `mysql.Module.RevokePrivilege` (mysql/module.go lines 149-155): a stub
that returns `fmt.Errorf("not implemented")` for every grant ID. -/
def mysqlRevokePrivilege (_grantID : String) : Except String Unit :=
  Except.error ("not implemented")

/-- Embeds `kubernetes.Module.RevokePrivilege` (part_010 lines 144-150): a stub
that returns `fmt.Errorf("not implemented")` for every grant ID. -/
def k8sRevokePrivilege (_grantID : String) : Except String Unit :=
  Except.error ("not implemented")

/-- Embeds `parseRole` of the kubernetes module (part_010 lines 169-183). -/
def parseRole (level : String) : Except String String :=
  if level = "read" then Except.ok "view"
  else if level = "write" then Except.ok "edit"
  else if level = "admin" then Except.ok "admin"
  else Except.error ("invalid privilege level: " ++ level)

/-- Embeds `createRoleAndBinding` (part_010 lines 194-200): a stub that returns
`fmt.Errorf("not implemented")` unconditionally. -/
def createRoleAndBinding (_roleName _role _userID : String) : Except String Unit :=
  Except.error ("not implemented")

/-- The kubernetes `Config` fields used by `HandlePrivilegeRequest`
(part_010); `rolePfx` embeds the source field `RolePrefix`. -/
structure K8sConfig where
  rolePfx : String
deriving Repr, DecidableEq

/-- Embeds `kubernetes.Module.HandlePrivilegeRequest` (part_010 lines 107-141).
Parses the role, builds the role name, calls the (stubbed)
`createRoleAndBinding`, and only after that success would it store the grant
metadata with `ExpiresAt = now + parseDuration(request.Duration)`. -/
def k8sHandlePrivilegeRequest (goParseDuration : String → Option Int)
    (cfg : K8sConfig) (now : Int) (request : OpPrivilegeRequest) :
    Except String OpPrivilegeRequest :=
  match parseRole request.Level with
  | Except.error e => Except.error ("invalid privilege level: " ++ e)
  | Except.ok role =>
      let roleName := cfg.rolePfx ++ "-" ++ request.UserID ++ "-" ++ request.ID
      match createRoleAndBinding roleName role request.UserID with
      | Except.error e => Except.error ("failed to create role and binding: " ++ e)
      | Except.ok () =>
          let grant : K8sGrant :=
            { ID := request.ID
              RoleName := roleName
              Role := role
              ExpiresAt := now + parseDuration goParseDuration request.Duration }
          Except.ok { request with Metadata := some (GrantMetadata.kubernetesGrant grant) }

/-! ## Operator HTTP revoke endpoint (part_001 lines 176-206) -/

/-- Embeds `handlePrivilegeRevoke`: calls `RevokePrivilege` on every enabled module
(each given by name and revoke function), collects the error strings
`"<name>: <err>"`, and answers HTTP 500 if any module errored, else 200.
Returns the collected error list and the HTTP status code. -/
def handlePrivilegeRevoke (modules : List (String × (String → Except String Unit)))
    (grantID : String) : List String × Nat :=
  let errors := modules.filterMap fun nm =>
    match nm.2 grantID with
    | Except.error e => some (nm.1 ++ ": " ++ e)
    | Except.ok () => none
  (errors, if errors = [] then 200 else 500)

/-! ## Operator poll loop (part_001 lines 208-258) -/

/-- The jobs one pass of `processJobs` dispatches to a handler out of the
pending list it fetched: those whose `Module` matches a locally registered
module and whose `Type` is `"ping"` (the only dispatched type; others are
logged and skipped).  No store write happens before dispatch — the source
has no claim step. -/
def dispatchedJobs (buffer : List Job) (moduleNames : List String) : List Job :=
  buffer.filter fun j => moduleNames.contains j.Module && j.Ty == "ping"

/-- The local state of one operator process: the pending list fetched by its
last poll, and the IDs of the jobs whose handler it has executed. -/
structure OperatorState where
  buffer : List Job
  executed : List String
deriving Repr, DecidableEq

/-- The control plane store together with two concurrently polling
operators, A and B. -/
structure SystemState where
  store : JobStore
  opA : OperatorState
  opB : OperatorState
deriving Repr, DecidableEq

/-- One interleaved step of the two operators running `processJobs`
concurrently against the shared job store, exactly the operations the source
performs: `poll` fetches `GetPendingJobs` (under some map enumeration of the
store), `dispatch` runs the handler of every matching buffered job, and
`report` is the final `UpdateJob` call, whose status argument is
`"completed"` or `"failed"` (processPingJob, part_001 lines 244-258).
There is no constructor writing a `"claimed"` status because the source
never writes one. -/
inductive OperatorStep (names : List String) : SystemState → SystemState → Prop where
  | pollA : ∀ (s : SystemState) (enum : List Job), List.Perm enum s.store →
      OperatorStep names s { s with opA := ⟨GetPendingJobs enum, s.opA.executed⟩ }
  | pollB : ∀ (s : SystemState) (enum : List Job), List.Perm enum s.store →
      OperatorStep names s { s with opB := ⟨GetPendingJobs enum, s.opB.executed⟩ }
  | dispatchA : ∀ (s : SystemState),
      OperatorStep names s
        { s with opA := ⟨[], s.opA.executed ++ (dispatchedJobs s.opA.buffer names).map Job.ID⟩ }
  | dispatchB : ∀ (s : SystemState),
      OperatorStep names s
        { s with opB := ⟨[], s.opB.executed ++ (dispatchedJobs s.opB.buffer names).map Job.ID⟩ }
  | reportA : ∀ (s : SystemState) (id status result errMsg : String) (store2 : JobStore),
      status = "completed" ∨ status = "failed" →
      UpdateJob s.store id status result errMsg = Except.ok store2 →
      OperatorStep names s { s with store := store2 }
  | reportB : ∀ (s : SystemState) (id status result errMsg : String) (store2 : JobStore),
      status = "completed" ∨ status = "failed" →
      UpdateJob s.store id status result errMsg = Except.ok store2 →
      OperatorStep names s { s with store := store2 }

/-! ## Derived notions used by the statements -/

/-- Numeric value of a decimal digit character (inverse of `digitChar`). -/
def charVal (c : Char) : Nat := c.toNat - 48

/-- Decode a decimal digit string back to the number it denotes. -/
def decVal (l : List Char) : Nat :=
  l.foldl (fun a c => a * 10 + charVal c) 0

/-- The numeric timestamp embedded in a job ID `job_<n>`. -/
def jobIDNum (s : String) : Nat := decVal (s.data.drop 4)

/-- The module names the configuration string denotes after splitting on
commas, trimming, and discarding empty fields — the names the
`GetEnabledModules` loop actually resolves. -/
def cleanedList (names : List String) : List String :=
  (names.map trimSpace).filter fun n => n ≠ ""

/-- The per-module status text `HandleHealthCheck` writes for a given
health-check outcome. -/
def renderHealth : Option String → String
  | none => "healthy"
  | some e => "unhealthy: " ++ e

/-- Invariant of `ModuleRegistry`: every entry is keyed by the lower-cased
name of the module it stores.  `Register` is the only write, and it
establishes this. -/
def RegistryWF (r : ModuleRegistry) : Prop :=
  ∀ p ∈ r, p.1 = toLowerStr p.2.name

/-- Concrete pending ping job used by several concrete instances. -/
def pingJob : Job :=
  { ID := "job_1", Module := "mysql", Ty := "ping", Request := "payload"
    Status := "pending", Result := "", Error := "" }

/-- A second concrete pending job, created after `pingJob`. -/
def pingJob2 : Job :=
  { ID := "job_2", Module := "mysql", Ty := "ping", Request := "payload"
    Status := "pending", Result := "", Error := "" }

/-- A concrete job already in the terminal `completed` status. -/
def doneJob : Job :=
  { ID := "job_1", Module := "mysql", Ty := "ping", Request := "payload"
    Status := "completed", Result := "done", Error := "" }

/-- A concrete privilege request whose `Duration` string `bogus` is not a
parseable Go duration. -/
def bogusDurationRequest : OpPrivilegeRequest :=
  { ID := "r1", UserID := "u1", ResourceID := "db.tbl", Level := "read"
    Duration := "bogus", Reason := "debug", RequestedAt := "t", Metadata := none }

/-! ## Helper lemmas about the job store -/

theorem findJob_map_set_self (s : JobStore) (id status result errMsg : String) (j : Job)
    (h : findJob s id = some j) :
    findJob (s.map fun x =>
        if x.ID = id then { x with Status := status, Result := result, Error := errMsg } else x)
      id = some { j with Status := status, Result := result, Error := errMsg } := by
  induction s with
  | nil => simp [findJob] at h
  | cons j0 rest ih =>
      by_cases h0 : j0.ID = id
      · simp only [findJob, if_pos h0, Option.some.injEq] at h
        subst h
        simp [findJob, h0]
      · simp only [findJob, if_neg h0] at h
        simpa [findJob, h0] using ih h

theorem findJob_map_set_other (s : JobStore) (id status result errMsg : String) (id2 : String)
    (h : id2 ≠ id) :
    findJob (s.map fun x =>
        if x.ID = id then { x with Status := status, Result := result, Error := errMsg } else x)
      id2 = findJob s id2 := by
  induction s with
  | nil => simp [findJob]
  | cons j0 rest ih =>
      by_cases h0 : j0.ID = id
      · have h2 : j0.ID ≠ id2 := by
          rw [h0]
          exact fun hc => h hc.symm
        simp [findJob, h0, h2, ih, Ne.symm h]
      · simp [findJob, h0, ih]

/-! ## Claim theorems -/

/-- C1, counterexample.  A job in the terminal status `completed` is not
protected: `UpdateJob` succeeds on it and overwrites its `Status`, `Result`
and `Error` fields, contradicting the claim that a terminal job rejects
further mutation. -/
theorem updateJob_overwrites_terminal_cex :
    doneJob.Status = "completed" ∧
    UpdateJob [doneJob] "job_1" "failed" "res2" "boom" =
      Except.ok [{ ID := "job_1", Module := "mysql", Ty := "ping", Request := "payload"
                   Status := "failed", Result := "res2", Error := "boom" }] ∧
    ("failed" : String) ≠ "completed" :=
  ⟨rfl, rfl, by decide⟩

/-- C1, amended.  `UpdateJob(id, status, result, err)` fails with the
NotFound error `job not found: <id>` when no job with that id exists (and,
returning before any write, leaves the store unchanged); for every stored
job — including one whose status is already terminal — the call succeeds and
unconditionally overwrites `Status`, `Result` and `Error` with the given
values, leaving every other job untouched. -/
theorem updateJob_notfound_or_unconditional_update
    (s : JobStore) (id status result errMsg : String) :
    (findJob s id = none →
      UpdateJob s id status result errMsg = Except.error ("job not found: " ++ id)) ∧
    (∀ j, findJob s id = some j →
      ∃ s2, UpdateJob s id status result errMsg = Except.ok s2 ∧
        findJob s2 id = some { j with Status := status, Result := result, Error := errMsg } ∧
        ∀ id2, id2 ≠ id → findJob s2 id2 = findJob s id2) := by
  constructor
  · intro h
    simp [UpdateJob, h]
  · intro j hj
    refine ⟨_, by simp [UpdateJob, hj], findJob_map_set_self s id status result errMsg j hj,
      fun id2 h2 => findJob_map_set_other s id status result errMsg id2 h2⟩

/-- C1, witness for the amended theorem at a one-job store. -/
theorem updateJob_notfound_or_unconditional_update_witness :
    findJob [] "job_1" = none ∧
    UpdateJob [] "job_1" "failed" "" "" = Except.error ("job not found: job_1") ∧
    ∃ s2, UpdateJob [doneJob] "job_1" "failed" "res2" "boom" = Except.ok s2 ∧
      findJob s2 "job_1" =
        some { doneJob with Status := "failed", Result := "res2", Error := "boom" } ∧
      ∀ id2, id2 ≠ "job_1" → findJob s2 id2 = findJob [doneJob] id2 :=
  ⟨rfl,
   (updateJob_notfound_or_unconditional_update [] "job_1" "failed" "" "").1 rfl,
   (updateJob_notfound_or_unconditional_update [doneJob] "job_1" "failed" "res2" "boom").2
     doneJob rfl⟩

/-- C2, confirmed.  `EvaluateRequest` returns nil exactly when the requested
duration `ExpiresAt - RequestedAt` is at most the 24-hour ceiling, at least
the 5-minute floor, and `Reason` is non-empty; when it rejects, the returned
error text names a rule that the request actually violates.  The function is
pure, so no side effect is performed on rejection. -/
theorem evaluateRequest_policy (request : ModelsPrivilegeRequest) :
    (EvaluateRequest request = none ↔
      request.ExpiresAt - request.RequestedAt ≤ maxDuration ∧
      minDuration ≤ request.ExpiresAt - request.RequestedAt ∧
      request.Reason ≠ "") ∧
    (∀ e, EvaluateRequest request = some e →
      (e = "privilege duration exceeds maximum allowed time" ∧
        maxDuration < request.ExpiresAt - request.RequestedAt) ∨
      (e = "privilege duration is less than minimum allowed time" ∧
        request.ExpiresAt - request.RequestedAt < minDuration) ∨
      (e = "reason is required for privilege request" ∧ request.Reason = "")) := by
  unfold EvaluateRequest
  split_ifs with h1 h2 h3 <;>
    constructor <;>
    simp_all <;>
    omega

/-- C2, witness: the empty-reason rejection at a concrete in-range request,
and acceptance of a concrete valid request, via `evaluateRequest_policy`. -/
theorem evaluateRequest_policy_witness :
    (("privilege duration exceeds maximum allowed time" : String) =
        "privilege duration exceeds maximum allowed time" ∧
      maxDuration < (⟨"", 0, 25 * Hour⟩ : ModelsPrivilegeRequest).ExpiresAt -
        (⟨"", 0, 25 * Hour⟩ : ModelsPrivilegeRequest).RequestedAt) ∨
    (("privilege duration exceeds maximum allowed time" : String) =
        "privilege duration is less than minimum allowed time" ∧
      (⟨"", 0, 25 * Hour⟩ : ModelsPrivilegeRequest).ExpiresAt -
        (⟨"", 0, 25 * Hour⟩ : ModelsPrivilegeRequest).RequestedAt < minDuration) ∨
    (("privilege duration exceeds maximum allowed time" : String) =
        "reason is required for privilege request" ∧
      (⟨"", 0, 25 * Hour⟩ : ModelsPrivilegeRequest).Reason = "") :=
  (evaluateRequest_policy ⟨"", 0, 25 * Hour⟩).2
    "privilege duration exceeds maximum allowed time" (by decide)

/-- C3, evidence.  Revocation is not idempotent success in the source: both
sample modules' `RevokePrivilege` is a stub returning the error
`not implemented` for every grant ID (so also for an already-revoked or
unknown grant), and the HTTP revoke endpoint therefore collects a module
error and answers 500 — never 200 — for every grant ID; a second identical
call fails the same way. -/
theorem revoke_always_fails_http500 :
    mysqlRevokePrivilege "g1" = Except.error ("not implemented") ∧
    k8sRevokePrivilege "g1" = Except.error ("not implemented") ∧
    handlePrivilegeRevoke [("mysql", mysqlRevokePrivilege)] "g1" =
      (["mysql: not implemented"], 500) :=
  ⟨rfl, rfl, rfl⟩

/-! ## Helper lemmas about the health handler -/

theorem mapGet_mapSet_self (m : List (String × String)) (k v : String) :
    mapGet (mapSet m k v) k = some v := by
  induction m with
  | nil => simp [mapSet, mapGet]
  | cons p rest ih =>
      obtain ⟨k0, v0⟩ := p
      by_cases h : k0 = k
      · simp [mapSet, mapGet, h]
      · simp [mapSet, mapGet, h, ih]

theorem mapGet_mapSet_other (m : List (String × String)) (k v k2 : String) (h : k2 ≠ k) :
    mapGet (mapSet m k v) k2 = mapGet m k2 := by
  induction m with
  | nil => simp [mapSet, mapGet, Ne.symm h]
  | cons p rest ih =>
      obtain ⟨k0, v0⟩ := p
      by_cases h0 : k0 = k
      · subst h0
        simp [mapSet, mapGet, Ne.symm h]
      · simp [mapSet, mapGet, h0, ih]

theorem healthLoop_status (ms : List (String × Option String)) (resp : HealthResponse) :
    (healthLoop ms resp).Status =
      if ms.any (fun p => p.2.isSome) then "degraded" else resp.Status := by
  induction ms generalizing resp with
  | nil => simp [healthLoop]
  | cons p rest ih =>
      obtain ⟨name, res⟩ := p
      cases res with
      | none =>
          cases hr : rest.any (fun p => p.2.isSome) with
          | false => simp [healthLoop, ih, hr]
          | true => simp [healthLoop, ih, hr]
      | some e => simp [healthLoop, ih]

theorem healthLoop_mapGet_not_mem (ms : List (String × Option String)) (name : String) :
    name ∉ ms.map Prod.fst → ∀ resp,
      mapGet (healthLoop ms resp).Modules name = mapGet resp.Modules name := by
  induction ms with
  | nil => intro _ resp; rfl
  | cons p rest ih =>
      intro h resp
      obtain ⟨n0, res⟩ := p
      simp only [List.map_cons, List.mem_cons, not_or] at h
      cases res with
      | none =>
          rw [healthLoop, ih h.2, mapGet_mapSet_other _ _ _ _ h.1]
      | some e =>
          rw [healthLoop, ih h.2, mapGet_mapSet_other _ _ _ _ h.1]

theorem healthLoop_mapGet_mem (ms : List (String × Option String)) (name : String)
    (res : Option String) :
    (ms.map Prod.fst).Nodup → (name, res) ∈ ms → ∀ resp,
      mapGet (healthLoop ms resp).Modules name = some (renderHealth res) := by
  induction ms with
  | nil => intro _ hmem; simp at hmem
  | cons p rest ih =>
      intro hnd hmem resp
      obtain ⟨n0, r0⟩ := p
      simp only [List.map_cons, List.nodup_cons] at hnd
      rcases List.mem_cons.mp hmem with heq | hmem2
      · cases heq
        cases res with
        | none =>
            rw [healthLoop, healthLoop_mapGet_not_mem rest name hnd.1]
            exact mapGet_mapSet_self _ _ _
        | some e =>
            rw [healthLoop, healthLoop_mapGet_not_mem rest name hnd.1]
            exact mapGet_mapSet_self _ _ _
      · cases r0 with
        | none => rw [healthLoop]; exact ih hnd.2 hmem2 _
        | some e => rw [healthLoop]; exact ih hnd.2 hmem2 _

/-- C7, counterexample.  With one module whose `HealthCheck` returns no
error, the aggregate status the handler reports is the string `healthy`,
not `ok` — the handler never emits the token `ok`, so the claimed
equivalence with status `ok` fails at this input. -/
theorem healthCheck_status_not_ok_cex :
    HandleHealthCheck [("mysql", none)] =
      ({ Status := "healthy", Modules := [("mysql", "healthy")] }, 200) ∧
    ("healthy" : String) ≠ "ok" :=
  ⟨rfl, by decide⟩

/-- C7, amended.  The health endpoint reports aggregate status `healthy`
(HTTP 200) if and only if every enabled module returns no error; if at least
one module errors, the aggregate status is `degraded` with HTTP 503; and
(for distinct module names, as the registry guarantees) a failing module's
per-module entry is exactly `unhealthy: <err>` — the module's error text
verbatim behind a fixed prefix — while a non-failing module's entry is
`healthy`. -/
theorem healthCheck_aggregate_amended (modules : List (String × Option String)) :
    ((HandleHealthCheck modules).1.Status = "healthy" ↔ ∀ p ∈ modules, p.2 = none) ∧
    ((HandleHealthCheck modules).2 = 200 ↔ ∀ p ∈ modules, p.2 = none) ∧
    (((HandleHealthCheck modules).1.Status = "degraded" ∧ (HandleHealthCheck modules).2 = 503)
      ↔ ∃ p ∈ modules, p.2 ≠ none) ∧
    ((modules.map Prod.fst).Nodup → ∀ name res, (name, res) ∈ modules →
      mapGet (HandleHealthCheck modules).1.Modules name = some (renderHealth res)) := by
  have hst := healthLoop_status modules { Status := "healthy", Modules := [] }
  by_cases h : modules.any (fun p => p.2.isSome)
  · have hex : ∃ p ∈ modules, p.2 ≠ none := by
      rcases List.any_eq_true.mp h with ⟨p, hp, hs⟩
      exact ⟨p, hp, Option.isSome_iff_ne_none.mp hs⟩
    have hnall : ¬ ∀ p ∈ modules, p.2 = none := by
      rcases hex with ⟨p, hp, hne⟩
      exact fun hall => hne (hall p hp)
    refine ⟨?_, ?_, ?_, ?_⟩
    · rw [show (HandleHealthCheck modules).1.Status = "degraded" from by
        simp [HandleHealthCheck, hst, h]]
      exact iff_of_false (by decide) hnall
    · rw [show (HandleHealthCheck modules).2 = 503 from by simp [HandleHealthCheck, hst, h]]
      exact iff_of_false (by decide) hnall
    · rw [show (HandleHealthCheck modules).1.Status = "degraded" from by
        simp [HandleHealthCheck, hst, h],
        show (HandleHealthCheck modules).2 = 503 from by simp [HandleHealthCheck, hst, h]]
      exact iff_of_true ⟨rfl, rfl⟩ hex
    · intro hnd name res hmem
      exact healthLoop_mapGet_mem modules name res hnd hmem _
  · have hall : ∀ p ∈ modules, p.2 = none := by
      intro p hp
      by_contra hne
      exact h (List.any_eq_true.mpr ⟨p, hp, Option.isSome_iff_ne_none.mpr hne⟩)
    have hnex : ¬ ∃ p ∈ modules, p.2 ≠ none := by
      rintro ⟨p, hp, hne⟩
      exact hne (hall p hp)
    refine ⟨?_, ?_, ?_, ?_⟩
    · rw [show (HandleHealthCheck modules).1.Status = "healthy" from by
        simp [HandleHealthCheck, hst, h]]
      exact iff_of_true rfl hall
    · rw [show (HandleHealthCheck modules).2 = 200 from by simp [HandleHealthCheck, hst, h]]
      exact iff_of_true rfl hall
    · rw [show (HandleHealthCheck modules).1.Status = "healthy" from by
        simp [HandleHealthCheck, hst, h]]
      exact iff_of_false (fun hc => absurd hc.1 (by decide)) hnex
    · intro hnd name res hmem
      exact healthLoop_mapGet_mem modules name res hnd hmem _

/-- C7, witness for the amended theorem: one failing and one healthy module;
the failing entry carries the error text verbatim behind the prefix. -/
theorem healthCheck_aggregate_amended_witness :
    mapGet (HandleHealthCheck
        [("mysql", some "database health check failed: timeout"), ("kubernetes", none)]).1.Modules
      "mysql" = some (renderHealth (some "database health check failed: timeout")) ∧
    mapGet (HandleHealthCheck
        [("mysql", some "database health check failed: timeout"), ("kubernetes", none)]).1.Modules
      "kubernetes" = some (renderHealth none) :=
  ⟨(healthCheck_aggregate_amended
      [("mysql", some "database health check failed: timeout"), ("kubernetes", none)]).2.2.2
      (by decide) "mysql" (some "database health check failed: timeout") (by decide),
   (healthCheck_aggregate_amended
      [("mysql", some "database health check failed: timeout"), ("kubernetes", none)]).2.2.2
      (by decide) "kubernetes" none (by decide)⟩

/-! ## Helper lemma for the MySQL grant loop -/

theorem execGrants_ok (exec : String → Except String Unit) (h : ∀ q, exec q = Except.ok ())
    (l : List String) : execGrants exec l = Except.ok () := by
  induction l with
  | nil => rfl
  | cons q rest ih => simp [execGrants, h q, ih]

/-- C10, counterexample.  For a request whose `Duration` is not a parseable
Go duration, the kubernetes module's handler does not set any grant metadata
at all: it fails earlier, at the stubbed `createRoleAndBinding`, so no
`ExpiresAt` of handling time plus one hour is ever recorded for it. -/
theorem k8s_handler_never_sets_metadata_cex :
    k8sHandlePrivilegeRequest (fun _ => none) { rolePfx := "apollo" } 0 bogusDurationRequest =
      Except.error ("failed to create role and binding: not implemented") ∧
    bogusDurationRequest.Metadata = none :=
  ⟨rfl, rfl⟩

/-- C10, amended.  On an unparseable `Duration`, `parseDuration` of both the
mysql and kubernetes modules silently substitutes one hour, and neither
handler fails because of the duration: the mysql handler (for a valid level,
with every GRANT statement succeeding) succeeds and stores grant metadata
with `ExpiresAt` equal to the handling time plus one hour regardless of what
the caller requested, while the kubernetes handler always fails at its
stubbed `createRoleAndBinding` — before the grant metadata line is reached —
so its metadata is never populated. -/
theorem parseDuration_default_and_mysql_expiry
    (p : String → Option Int) (exec : String → Except String Unit) (now : Int)
    (request : OpPrivilegeRequest) (privs : List String) (cfg : K8sConfig) (role : String)
    (hdur : p request.Duration = none)
    (hlev : parsePrivileges request.Level = Except.ok privs)
    (hexec : ∀ q, exec q = Except.ok ())
    (hrole : parseRole request.Level = Except.ok role) :
    parseDuration p request.Duration = Hour ∧
    mysqlHandlePrivilegeRequest p exec now request =
      Except.ok { request with Metadata := some (GrantMetadata.mysqlGrant
        { ID := request.ID
          Username := "apollo_" ++ request.UserID ++ "_" ++ request.ID
          Password := generateSecurePassword
          Privileges := privs
          ExpiresAt := now + Hour }) } ∧
    k8sHandlePrivilegeRequest p cfg now request =
      Except.error ("failed to create role and binding: not implemented") := by
  refine ⟨?_, ?_, ?_⟩
  · rw [parseDuration, hdur]
  · simp [mysqlHandlePrivilegeRequest, hlev, execGrants_ok exec hexec, parseDuration, hdur]
  · simp [k8sHandlePrivilegeRequest, hrole, createRoleAndBinding]

/-- C10, witness: a concrete unparseable duration through both handlers. -/
theorem parseDuration_default_and_mysql_expiry_witness :
    parseDuration (fun _ => none) bogusDurationRequest.Duration = Hour ∧
    mysqlHandlePrivilegeRequest (fun _ => none) (fun _ => Except.ok ()) 0
        bogusDurationRequest =
      Except.ok { bogusDurationRequest with
                  Metadata := some (GrantMetadata.mysqlGrant
                    { ID := bogusDurationRequest.ID
                      Username := "apollo_" ++ bogusDurationRequest.UserID ++ "_" ++
                        bogusDurationRequest.ID
                      Password := generateSecurePassword
                      Privileges := ["SELECT"]
                      ExpiresAt := 0 + Hour }) } ∧
    k8sHandlePrivilegeRequest (fun _ => none) { rolePfx := "apollo" } 0 bogusDurationRequest =
      Except.error ("failed to create role and binding: not implemented") :=
  parseDuration_default_and_mysql_expiry (fun _ => none) (fun _ => Except.ok ()) 0
    bogusDurationRequest ["SELECT"] { rolePfx := "apollo" } "view" rfl rfl (fun _ => rfl) rfl

/-! ## Helper lemmas about the registry name resolution -/

theorem cleanedList_cons (a : String) (l : List String) :
    cleanedList (a :: l) =
      if trimSpace a = "" then cleanedList l else trimSpace a :: cleanedList l := by
  by_cases h : trimSpace a = ""
  · simp [cleanedList, h]
  · simp [cleanedList, h]

theorem resolveNames_ok_forall (r : ModuleRegistry) (names : List String) :
    ∀ ms, resolveNames r names = Except.ok ms →
      List.Forall₂ (fun n m => GetModule r n = Except.ok m) (cleanedList names) ms := by
  induction names with
  | nil =>
      intro ms h
      rw [resolveNames] at h
      cases h
      simp only [cleanedList, List.map_nil, List.filter_nil]
      exact List.Forall₂.nil
  | cons rawName rest ih =>
      intro ms h
      rw [resolveNames] at h
      rw [cleanedList_cons]
      by_cases he : trimSpace rawName = ""
      · rw [if_pos he] at h
        rw [if_pos he]
        exact ih ms h
      · rw [if_neg he] at h
        rw [if_neg he]
        cases hg : GetModule r (trimSpace rawName) with
        | error e => rw [hg] at h; cases h
        | ok m =>
            rw [hg] at h
            cases hr : resolveNames r rest with
            | error e => rw [hr] at h; cases h
            | ok ms2 =>
                rw [hr] at h
                cases h
                exact List.Forall₂.cons hg (ih ms2 hr)

theorem resolveNames_err (r : ModuleRegistry) (names : List String) :
    (∃ n ∈ cleanedList names, lookupKey r (toLowerStr n) = none) →
      ∃ e, resolveNames r names = Except.error e := by
  induction names with
  | nil =>
      rintro ⟨n, hn, _⟩
      simp [cleanedList] at hn
  | cons rawName rest ih =>
      rintro ⟨n, hn, hlook⟩
      rw [cleanedList_cons] at hn
      rw [resolveNames]
      by_cases he : trimSpace rawName = ""
      · rw [if_pos he] at hn
        rw [if_pos he]
        exact ih ⟨n, hn, hlook⟩
      · rw [if_neg he] at hn
        rw [if_neg he]
        rcases List.mem_cons.mp hn with rfl | hn2
        · have hg : GetModule r (trimSpace rawName) =
              Except.error ("module " ++ trimSpace rawName ++ " not found") := by
            rw [GetModule, hlook]
          rw [hg]
          exact ⟨_, rfl⟩
        · cases hg : GetModule r (trimSpace rawName) with
          | error e => exact ⟨_, rfl⟩
          | ok m =>
              rcases ih ⟨n, hn2, hlook⟩ with ⟨e, he2⟩
              rw [he2]
              exact ⟨e, rfl⟩

/-- C5, counterexample.  The operator-side `Registry.GetEnabledModules`
(part_003) silently skips a name that was never registered: on an empty
registry with input `mysql` it returns the empty module list and has no
error result at all, while the claim requires a ModuleNotFound failure.
The control-plane `ModuleRegistry.GetEnabledModules` does fail, shown for
contrast. -/
theorem cmdGetEnabledModules_skips_unknown_cex :
    CmdGetEnabledModules [] "mysql" = [] ∧
    GetEnabledModules [] "mysql" =
      Except.error ("failed to get module mysql: module mysql not found") :=
  ⟨rfl, rfl⟩

/-- C5, amended.  The control-plane `ModuleRegistry.GetEnabledModules` trims
whitespace from each comma-separated name, resolves the (non-empty) names in
the caller's order — a successful result pairs the cleaned name list with
the module list elementwise — and fails with a wrapped ModuleNotFound error
when any named module was never registered.  The operator-side
`Registry.GetEnabledModules` (part_003), however, silently skips unknown
names: it has no error result, and every module it returns was found under
one of the requested trimmed names. -/
theorem getEnabledModules_trim_order_and_unknown
    (r : ModuleRegistry) (csv : String) (r2 : List (String × Module)) :
    (∀ ms, GetEnabledModules r csv = Except.ok ms →
      List.Forall₂ (fun n m => GetModule r n = Except.ok m)
        (cleanedList (goSplitComma csv)) ms) ∧
    (csv ≠ "" → (∃ n ∈ cleanedList (goSplitComma csv), lookupKey r (toLowerStr n) = none) →
      ∃ e, GetEnabledModules r csv = Except.error e) ∧
    (∀ m, m ∈ CmdGetEnabledModules r2 csv →
      ∃ rawName ∈ goSplitComma csv, lookupKey r2 (trimSpace rawName) = some m) := by
  refine ⟨?_, ?_, ?_⟩
  · intro ms h
    by_cases hc : csv = ""
    · rw [GetEnabledModules, if_pos hc] at h
      cases h
    · rw [GetEnabledModules, if_neg hc] at h
      exact resolveNames_ok_forall r _ ms h
  · intro hc hex
    rw [GetEnabledModules, if_neg hc]
    exact resolveNames_err r _ hex
  · intro m hm
    by_cases hc : csv = ""
    · rw [CmdGetEnabledModules, if_pos hc] at hm
      cases hm
    · rw [CmdGetEnabledModules, if_neg hc] at hm
      rcases List.mem_filterMap.mp hm with ⟨rawName, hraw, hlook⟩
      exact ⟨rawName, hraw, hlook⟩

/-- C5, witness: a whitespace-laden configuration resolving in order, and a
failure on an unregistered name, via the amended theorem. -/
theorem getEnabledModules_trim_order_and_unknown_witness :
    List.Forall₂
      (fun n m => GetModule [("mysql", { name := "MySQL", description := "d" })] n =
        Except.ok m)
      (cleanedList (goSplitComma " mysql , "))
      [{ name := "MySQL", description := "d" }] ∧
    ∃ e, GetEnabledModules [] "kubernetes" = Except.error e :=
  ⟨(getEnabledModules_trim_order_and_unknown
      [("mysql", { name := "MySQL", description := "d" })] " mysql , " []).1
      [{ name := "MySQL", description := "d" }] rfl,
   (getEnabledModules_trim_order_and_unknown [] "kubernetes" []).2.1 (by decide)
      ⟨"kubernetes", by decide, rfl⟩⟩

/-! ## Helper lemmas about registry lookup -/

theorem lookupKey_ne_none_of_mem (r : ModuleRegistry) (k : String) (m : Module) :
    (k, m) ∈ r → lookupKey r k ≠ none := by
  induction r with
  | nil => intro h; simp at h
  | cons p rest ih =>
      intro h
      obtain ⟨k0, m0⟩ := p
      rcases List.mem_cons.mp h with heq | hmem
      · cases heq
        simp [lookupKey]
      · by_cases h0 : k0 = k
        · simp [lookupKey, h0]
        · simpa [lookupKey, h0] using ih hmem

theorem lookupKey_none_not_mem_keys (r : ModuleRegistry) (k : String) :
    lookupKey r k = none → k ∉ r.map Prod.fst := by
  induction r with
  | nil => intro _ h; simp at h
  | cons p rest ih =>
      intro hl h
      obtain ⟨k0, m0⟩ := p
      by_cases h0 : k0 = k
      · simp [lookupKey, h0] at hl
      · rw [lookupKey, if_neg h0] at hl
        rcases List.mem_cons.mp h with heq | hmem
        · exact h0 heq.symm
        · exact ih hl hmem

theorem lookupKey_append_self (r : ModuleRegistry) (k : String) (m : Module) :
    lookupKey r k = none → lookupKey (r ++ [(k, m)]) k = some m := by
  induction r with
  | nil => intro _; simp [lookupKey]
  | cons p rest ih =>
      intro hl
      obtain ⟨k0, m0⟩ := p
      by_cases h0 : k0 = k
      · simp [lookupKey, h0] at hl
      · rw [lookupKey, if_neg h0] at hl
        simpa [lookupKey, h0] using ih hl

theorem lookupKey_append_other (r : ModuleRegistry) (k : String) (m : Module) (k2 : String) :
    k2 ≠ k → lookupKey (r ++ [(k, m)]) k2 = lookupKey r k2 := by
  induction r with
  | nil => intro h; simp [lookupKey, Ne.symm h]
  | cons p rest ih =>
      intro h
      obtain ⟨k0, m0⟩ := p
      by_cases h0 : k0 = k2
      · simp [lookupKey, h0]
      · simp [lookupKey, h0, ih h]

/-- C6, confirmed.  For a well-formed registry (every entry keyed by the
lower-cased name of its module, which `Register` alone establishes),
`Register` fails with the DuplicateModule error whenever a module whose name
differs only in case is already registered; and a successful `Register`
preserves well-formedness and key uniqueness, makes `GetModule` find the new
module under any casing of its name, and leaves every other lookup
unchanged. -/
theorem register_case_insensitive_unique (r : ModuleRegistry) (m : Module)
    (hwf : RegistryWF r) :
    ((∃ p ∈ r, toLowerStr p.2.name = toLowerStr m.name) →
      Register r m =
        Except.error ("module " ++ toLowerStr m.name ++ " is already registered")) ∧
    (∀ r2, Register r m = Except.ok r2 →
      RegistryWF r2 ∧
      ((r.map Prod.fst).Nodup → (r2.map Prod.fst).Nodup) ∧
      (∀ n, toLowerStr n = toLowerStr m.name → GetModule r2 n = Except.ok m) ∧
      (∀ n, toLowerStr n ≠ toLowerStr m.name → GetModule r2 n = GetModule r n)) := by
  constructor
  · rintro ⟨p, hp, hkey⟩
    have hk : p.1 = toLowerStr m.name := (hwf p hp).trans hkey
    have hne : lookupKey r (toLowerStr m.name) ≠ none := by
      refine lookupKey_ne_none_of_mem r _ p.2 ?_
      rw [← hk]
      exact hp
    rw [Register]
    cases hl : lookupKey r (toLowerStr m.name) with
    | none => exact absurd hl hne
    | some m2 => rfl
  · intro r2 h
    cases hl : lookupKey r (toLowerStr m.name) with
    | some m2 => rw [Register, hl] at h; cases h
    | none =>
        rw [Register, hl] at h
        cases h
        refine ⟨?_, ?_, ?_, ?_⟩
        · intro p hp
          rcases List.mem_append.mp hp with hp1 | hp2
          · exact hwf p hp1
          · rcases List.mem_singleton.mp hp2 with rfl
            rfl
        · intro hnd
          rw [List.map_append]
          refine List.Nodup.append hnd (List.nodup_singleton _) ?_
          intro a ha hb
          rcases List.mem_singleton.mp hb with rfl
          exact lookupKey_none_not_mem_keys r _ hl ha
        · intro n hn
          rw [GetModule, hn, lookupKey_append_self r _ m hl]
        · intro n hn
          rw [GetModule, GetModule, lookupKey_append_other r _ m _ hn]

/-- C6, witness: registering `MYSQL` over the registered `MySQL` is rejected
as a duplicate, and a freshly registered `MySQL` is found under the casing
`MYsql`. -/
theorem register_case_insensitive_unique_witness :
    Register [("mysql", { name := "MySQL", description := "d" })]
        { name := "MYSQL", description := "e" } =
      Except.error ("module mysql is already registered") ∧
    GetModule [("mysql", { name := "MySQL", description := "d" })] "MYsql" =
      Except.ok { name := "MySQL", description := "d" } :=
  ⟨(register_case_insensitive_unique [("mysql", { name := "MySQL", description := "d" })]
      { name := "MYSQL", description := "e" }
      (by intro p hp; rcases List.mem_singleton.mp hp with rfl; rfl)).1
      ⟨("mysql", { name := "MySQL", description := "d" }), by decide, by decide⟩,
   ((register_case_insensitive_unique [] { name := "MySQL", description := "d" }
      (by intro p hp; simp at hp)).2
      [("mysql", { name := "MySQL", description := "d" })] rfl).2.2.1
      "MYsql" (by decide)⟩

/-- C8, counterexample.  Go map iteration order is unspecified, and the
handler returns the pending jobs in whatever order the map yields them: the
enumeration `[pingJob2, pingJob]` is a permutation of the store whose
creation order is `[pingJob, pingJob2]`, and on it `GetPendingJobs` returns
the two pending jobs in reversed creation order. -/
theorem getPendingJobs_order_cex :
    List.Perm [pingJob2, pingJob] [pingJob, pingJob2] ∧
    GetPendingJobs [pingJob2, pingJob] = [pingJob2, pingJob] ∧
    [pingJob2, pingJob] ≠ [pingJob, pingJob2] :=
  ⟨List.Perm.swap pingJob pingJob2 [], rfl, by decide⟩

/-- C8, amended.  For every store and every enumeration the Go map may yield
(any permutation of the store contents), `GetPendingJobs` returns exactly
the jobs whose `Status` is `pending` — none omitted, none of another status
included — as a permutation of the pending jobs in creation order; the order
itself is the map's iteration order and is not guaranteed to be creation
order. -/
theorem getPendingJobs_exactly_pending (s enum : List Job) (h : List.Perm enum s) :
    (∀ j, j ∈ GetPendingJobs enum ↔ j ∈ s ∧ j.Status = "pending") ∧
    List.Perm (GetPendingJobs enum) (GetPendingJobs s) := by
  constructor
  · intro j
    simp [GetPendingJobs, List.mem_filter, h.mem_iff]
  · exact h.filter _

/-- C8, witness: the reversed enumeration of the two-job store, via the
amended theorem. -/
theorem getPendingJobs_exactly_pending_witness :
    (∀ j, j ∈ GetPendingJobs [pingJob2, pingJob] ↔
      j ∈ [pingJob, pingJob2] ∧ j.Status = "pending") ∧
    List.Perm (GetPendingJobs [pingJob2, pingJob]) (GetPendingJobs [pingJob, pingJob2]) :=
  getPendingJobs_exactly_pending [pingJob, pingJob2] [pingJob2, pingJob]
    (List.Perm.swap pingJob pingJob2 [])

/-! ## Helper lemmas for decoding job IDs -/

theorem charVal_digitChar (d : Nat) (h : d < 10) : charVal (digitChar d) = d := by
  interval_cases d <;> decide

theorem decFold_natDigitsAux (fuel : Nat) : ∀ n, n < fuel → ∀ a : Nat,
    List.foldl (fun a c => a * 10 + charVal c) a (natDigitsAux fuel n) =
      a * 10 ^ (natDigitsAux fuel n).length + n := by
  induction fuel with
  | zero => intro n h; omega
  | succ fuel ih =>
      intro n h a
      rw [natDigitsAux]
      by_cases h10 : n < 10
      · rw [if_pos h10]
        simp [charVal_digitChar n h10]
      · rw [if_neg h10]
        have hdiv : n / 10 < n := Nat.div_lt_self (by omega) (by omega)
        have hlt : n / 10 < fuel := by omega
        rw [List.foldl_append, ih (n / 10) hlt a, List.length_append]
        simp only [List.foldl_cons, List.foldl_nil, List.length_cons, List.length_nil]
        rw [charVal_digitChar (n % 10) (Nat.mod_lt n (by omega))]
        have hmod := Nat.div_add_mod n 10
        calc (a * 10 ^ (natDigitsAux fuel (n / 10)).length + n / 10) * 10 + n % 10
            = a * (10 ^ (natDigitsAux fuel (n / 10)).length * 10) +
                (10 * (n / 10) + n % 10) := by ring
          _ = a * 10 ^ ((natDigitsAux fuel (n / 10)).length + (0 + 1)) + n := by
                rw [hmod, pow_succ]

theorem decVal_natDigits (n : Nat) : decVal (natDigits n) = n := by
  have h := decFold_natDigitsAux (n + 1) n (by omega) 0
  simpa [decVal, natDigits] using h

theorem jobIDNum_generateJobID (t : Nat) : jobIDNum (generateJobID t) = t := by
  have h1 : (generateJobID t).data = "job_".data ++ natDigits t := by
    simp [generateJobID]
  rw [jobIDNum, h1]
  have h2 : ("job_".data).length = 4 := rfl
  rw [← h2, List.drop_left]
  exact decVal_natDigits t

/-- C9, counterexample.  Two distinct `CreateJob` calls that read the same
wall-clock nanosecond produce the same ID, and the second silently
overwrites the first in the store (one job remains); moreover the ID of a
job created at nanosecond 10 orders lexicographically before the ID of one
created at nanosecond 9, so later IDs do not order after earlier ones. -/
theorem createJob_id_collision_and_order_cex :
    (CreateJob [] "mysql" "ping" "payload" 5).1.ID =
      (CreateJob (CreateJob [] "mysql" "ping" "payload" 5).2
        "mysql" "ping" "payload" 5).1.ID ∧
    (CreateJob (CreateJob [] "mysql" "ping" "payload" 5).2
        "mysql" "ping" "payload" 5).2 =
      [(CreateJob [] "mysql" "ping" "payload" 5).1] ∧
    generateJobID 10 < generateJobID 9 := by
  refine ⟨rfl, rfl, ?_⟩
  rw [String.lt_iff_toList_lt]
  decide

/-- C9, amended.  Every job returned by `CreateJob` has status `pending` and
carries the given module, type and payload, and its ID is `job_<t>` for the
nanosecond reading `t` at the call; IDs decode back to their timestamp
(`jobIDNum`), so calls whose clock readings differ get distinct IDs and the
embedded timestamps are monotonic — but two calls within the same nanosecond
collide, and the IDs are not monotonic in string order (see the
counterexample). -/
theorem createJob_fields_and_id_injective (s : JobStore)
    (module jobType request : String) (t t1 t2 : Nat) :
    ((CreateJob s module jobType request t).1.Status = "pending" ∧
     (CreateJob s module jobType request t).1.Module = module ∧
     (CreateJob s module jobType request t).1.Ty = jobType ∧
     (CreateJob s module jobType request t).1.Request = request ∧
     (CreateJob s module jobType request t).1.ID = generateJobID t) ∧
    jobIDNum (generateJobID t) = t ∧
    (t1 ≠ t2 → generateJobID t1 ≠ generateJobID t2) := by
  refine ⟨⟨rfl, rfl, rfl, rfl, rfl⟩, jobIDNum_generateJobID t, ?_⟩
  intro hne heq
  apply hne
  have h := congrArg jobIDNum heq
  rwa [jobIDNum_generateJobID, jobIDNum_generateJobID] at h

/-- C9, witness: concrete distinct nanosecond readings give distinct IDs. -/
theorem createJob_fields_and_id_injective_witness :
    (CreateJob [] "mysql" "ping" "payload" 5).1.Status = "pending" ∧
    generateJobID 5 ≠ generateJobID 6 :=
  ⟨(createJob_fields_and_id_injective [] "mysql" "ping" "payload" 5 5 6).1.1,
   (createJob_fields_and_id_injective [] "mysql" "ping" "payload" 5 5 6).2.2 (by decide)⟩

/-- C4, evidence.  The operator protocol embedded from the source has no
claim step: in the interleaving where operators A and B both poll the shared
store before either dispatches (poll A, poll B, dispatch A, dispatch B),
both operators execute the handler of the same pending job `job_1`, so the
claimed pending-to-claimed compare-and-set — which would make at most one of
them execute it — does not exist in the code. -/
theorem both_operators_execute_same_job :
    ∃ final : SystemState,
      Relation.ReflTransGen (OperatorStep ["mysql"])
        { store := [pingJob], opA := { buffer := [], executed := [] }
          opB := { buffer := [], executed := [] } } final ∧
      final.opA.executed = ["job_1"] ∧ final.opB.executed = ["job_1"] := by
  have h1 : OperatorStep ["mysql"]
      { store := [pingJob], opA := { buffer := [], executed := [] }
        opB := { buffer := [], executed := [] } }
      { store := [pingJob], opA := { buffer := [pingJob], executed := [] }
        opB := { buffer := [], executed := [] } } :=
    OperatorStep.pollA _ [pingJob] (List.Perm.refl _)
  have h2 : OperatorStep ["mysql"]
      { store := [pingJob], opA := { buffer := [pingJob], executed := [] }
        opB := { buffer := [], executed := [] } }
      { store := [pingJob], opA := { buffer := [pingJob], executed := [] }
        opB := { buffer := [pingJob], executed := [] } } :=
    OperatorStep.pollB _ [pingJob] (List.Perm.refl _)
  have h3 : OperatorStep ["mysql"]
      { store := [pingJob], opA := { buffer := [pingJob], executed := [] }
        opB := { buffer := [pingJob], executed := [] } }
      { store := [pingJob], opA := { buffer := [], executed := ["job_1"] }
        opB := { buffer := [pingJob], executed := [] } } :=
    OperatorStep.dispatchA _
  have h4 : OperatorStep ["mysql"]
      { store := [pingJob], opA := { buffer := [], executed := ["job_1"] }
        opB := { buffer := [pingJob], executed := [] } }
      { store := [pingJob], opA := { buffer := [], executed := ["job_1"] }
        opB := { buffer := [], executed := ["job_1"] } } :=
    OperatorStep.dispatchB _
  exact ⟨_, Relation.ReflTransGen.head h1 (Relation.ReflTransGen.head h2
    (Relation.ReflTransGen.head h3 (Relation.ReflTransGen.head h4 Relation.ReflTransGen.refl))),
    rfl, rfl⟩

end Apollo
